import Mathlib

/-!
Verification of the Cerebra-AI splash-screen animation engine
(src/Frontend/src/components/ChatColorStyles.tsx, `SplashScreen`).

The component animates the seven letters of the logotype: each letter has a
random seed drawn once per session, a two-segment trajectory driven by easing
curves, decaying glitch jitter, and an opacity/fade lifecycle driven by a
requestAnimationFrame loop plus two nested setTimeouts.  We embed the numeric
formulas over the reals (rationals where no transcendental function occurs)
and the frame/timer lifecycle as an explicit event-step machine.
-/

namespace Cerebra

/-- Animation duration in ms (`totalDuration = 4500` in the source). -/
def totalDuration : ℚ := 4500

/-- Fade-out duration in ms (`fadeOutDuration = 1200`). -/
def fadeOutDuration : ℚ := 1200

/-- The brief pause before fading, the literal `800` in `setTimeout(..., 800)`. -/
def holdPause : ℚ := 800

/-- Number of animated letters: `letters = ['C','E','R','E','B','R','A']`. -/
def letterCount : ℕ := 7

/-- Per-letter random parameter vector, from the `letterData` initializer. -/
structure ElementSeed where
  startX : ℝ
  startY : ℝ
  startRotation : ℝ
  startScale : ℝ
  midX : ℝ
  midY : ℝ
  finalX : ℝ
  finalY : ℝ
  pixelIntensity : ℝ
  glitchOffset : ℝ

/-- One entry of `letterData`: the eight `Math.random()` draws are abstracted
as parameters `r1..r8`, each in `[0,1)`.  Field formulas are verbatim from the
source (`(Math.random() - 0.5) * 1200`, etc.); `finalX = index * -8`. -/
noncomputable def mkLetterSeed (index : ℕ) (r1 r2 r3 r4 r5 r6 r7 r8 : ℝ) : ElementSeed where
  startX := (r1 - 0.5) * 1200
  startY := (r2 - 0.5) * 800
  startRotation := (r3 - 0.5) * 720
  startScale := 0.1 + r4 * 0.3
  midX := (r5 - 0.5) * 400
  midY := (r6 - 0.5) * 300
  finalX := (index : ℝ) * (-8)
  finalY := 0
  pixelIntensity := r7 * 0.8 + 0.2
  glitchOffset := r8 * 20 - 10

/-- `easeOutQuart(t) = 1 - Math.pow(1 - t, 4)`. -/
noncomputable def easeOutQuart (t : ℝ) : ℝ := 1 - (1 - t) ^ 4

/-- `easeInOutCubic(t) = t < 0.5 ? 4*t*t*t : 1 - Math.pow(-2*t + 2, 3) / 2`. -/
noncomputable def easeInOutCubic (t : ℝ) : ℝ :=
  if t < 0.5 then 4 * t * t * t else 1 - (-2 * t + 2) ^ 3 / 2

/-- Result of `getPosition` inside `getLetterStyle`. -/
structure LetterPos where
  x : ℝ
  y : ℝ
  rotation : ℝ
  scale : ℝ

/-- `getPosition(t)` from `getLetterStyle`, for letter seed `data` at slot
`index`.  (The source also computes `positionEase = easeOutQuart(t)`, which is
never used; it is omitted here.)  The two-segment path switches at `t = 0.6`;
the first segment adds sinusoidal overshoot scaled by `(1 - easedT)`. -/
noncomputable def getPosition (data : ElementSeed) (index : ℕ) (t : ℝ) : LetterPos :=
  { x :=
      if t < 0.6 then
        data.startX * (1 - easeOutQuart (t / 0.6)) + data.midX * easeOutQuart (t / 0.6)
          + Real.sin (t * Real.pi * 3 + (index : ℝ)) * (1 - easeOutQuart (t / 0.6)) * 50
      else
        data.midX * (1 - easeInOutCubic ((t - 0.6) / 0.4))
          + data.finalX * easeInOutCubic ((t - 0.6) / 0.4)
    y :=
      if t < 0.6 then
        data.startY * (1 - easeOutQuart (t / 0.6)) + data.midY * easeOutQuart (t / 0.6)
          + Real.cos (t * Real.pi * 2.5 + (index : ℝ)) * (1 - easeOutQuart (t / 0.6)) * 30
      else
        data.midY * (1 - easeInOutCubic ((t - 0.6) / 0.4))
          + data.finalY * easeInOutCubic ((t - 0.6) / 0.4)
    rotation := data.startRotation * (1 - easeInOutCubic t)
    scale := data.startScale * (1 - easeInOutCubic (min (t * 1.5) 1))
      + 1 * easeInOutCubic (min (t * 1.5) 1) }

/-- Glitch x-offset from `getLetterStyle`:
`progress < 0.4 ? Math.sin(Date.now()*0.01 + index) * data.glitchOffset * (1 - progress*2.5) : 0`. -/
noncomputable def glitchX (data : ElementSeed) (index : ℕ) (now t : ℝ) : ℝ :=
  if t < 0.4 then Real.sin (now * 0.01 + (index : ℝ)) * data.glitchOffset * (1 - t * 2.5) else 0

/-- Glitch y-offset from `getLetterStyle`:
`progress < 0.4 ? Math.cos(Date.now()*0.015 + index) * data.glitchOffset * 0.5 * (1 - progress*2.5) : 0`. -/
noncomputable def glitchY (data : ElementSeed) (index : ℕ) (now t : ℝ) : ℝ :=
  if t < 0.4 then
    Real.cos (now * 0.015 + (index : ℝ)) * data.glitchOffset * 0.5 * (1 - t * 2.5)
  else 0

/-- Per-element opacity from `getLetterStyle` (lines computing `opacity`),
over ℚ since only rational arithmetic occurs:
`opacity = Math.min(progress * 2.5, 1)`, and when `fadeOut` is set,
`opacity *= Math.max(0, 1 - (now - (startTime + totalDuration + 800)) / fadeOutDuration)`. -/
def opacityAt (progress : ℚ) (fadeOut : Bool) (now startTime : ℚ) : ℚ :=
  let o := min (progress * 2.5) 1
  if fadeOut then
    o * max 0 (1 - (now - (startTime + totalDuration + holdPause)) / fadeOutDuration)
  else o

/-- `newProgress = Math.min(elapsed / totalDuration, 1)` from `animate`. -/
def progressAt (startTime now : ℚ) : ℚ := min ((now - startTime) / totalDuration) 1

/-!
## The frame/timer lifecycle

`SplashScreen` runs `animate` via `requestAnimationFrame`; when progress first
reaches 1 it schedules `setTimeout(..., 800)` whose callback sets `fadeOut` and
schedules `setTimeout(onComplete, fadeOutDuration)`.  The `useEffect` cleanup
cancels only the pending animation frame (`cancelAnimationFrame`); the two
timeouts are never cleared.  We model this single-threaded event loop with an
explicit state and one step function per event kind.  The `fadeOut` value the
`animate` closure captures always agrees with the state's `fadeOut` field:
the effect re-runs (cancelling the stale frame and requesting a fresh one)
whenever `fadeOut` changes, and no frame is pending at the moment it changes.
-/

/-- The mutable state of one mounted `SplashScreen`:
refs (`startTimeRef`), React state (`progress`, `fadeOut`), the pending
animation-frame request, the two pending timeout deadlines (absolute times),
and ghost fields recording when the fade started, when `onComplete` ran, and
how often it ran.  `mounted` is false once the host has disposed the component. -/
structure EngineState where
  startTime : Option ℚ
  progress : ℚ
  fadeOut : Bool
  rafPending : Bool
  holdDeadline : Option ℚ
  completeDeadline : Option ℚ
  fadeStartTime : Option ℚ
  completedAt : Option ℚ
  completeCount : ℕ
  mounted : Bool

/-- State right after mount: the effect body has requested the first frame. -/
def initState : EngineState where
  startTime := none
  progress := 0
  fadeOut := false
  rafPending := true
  holdDeadline := none
  completeDeadline := none
  fadeStartTime := none
  completedAt := none
  completeCount := 0
  mounted := true

/-- `if (!startTimeRef.current) startTimeRef.current = currentTime`:
the ref is (re)set when unset — or zero, since `!0` is true in JS. -/
def startTimeOf (s : EngineState) (now : ℚ) : ℚ :=
  match s.startTime with
  | none => now
  | some t => if t = 0 then now else t

/-- One `animate(currentTime)` invocation.  It only happens while a frame
request is pending.  It records the start time, sets
`progress = min(elapsed/totalDuration, 1)`, schedules the 800 ms hold timeout
when progress first reaches 1 with `fadeOut` still false, and requests the
next frame iff `newProgress < 1 || fadeOut`. -/
def tick (s : EngineState) (now : ℚ) : EngineState :=
  if s.rafPending then
    if 1 ≤ progressAt (startTimeOf s now) now ∧ s.fadeOut = false then
      { s with startTime := some (startTimeOf s now)
               progress := progressAt (startTimeOf s now) now
               rafPending :=
                 if progressAt (startTimeOf s now) now < 1 ∨ s.fadeOut = true then true else false
               holdDeadline := some (now + holdPause) }
    else
      { s with startTime := some (startTimeOf s now)
               progress := progressAt (startTimeOf s now) now
               rafPending :=
                 if progressAt (startTimeOf s now) now < 1 ∨ s.fadeOut = true then true else false }
  else s

/-- The 800 ms hold timeout firing: `setFadeOut(true); setTimeout(onComplete,
fadeOutDuration)`.  JS timers fire even after unmount; only the `setFadeOut`
becomes a no-op then (React ignores state updates on unmounted components),
while the inner `setTimeout(onComplete, ...)` is scheduled regardless.  While
mounted, the `fadeOut` change re-runs the effect, which requests a frame. -/
def fireHold (s : EngineState) (now : ℚ) : EngineState :=
  if s.holdDeadline = some now then
    if s.mounted then
      { s with holdDeadline := none
               fadeOut := true
               fadeStartTime := some now
               rafPending := true
               completeDeadline := some (now + fadeOutDuration) }
    else
      { s with holdDeadline := none
               completeDeadline := some (now + fadeOutDuration) }
  else s

/-- The fade timeout firing: the host's `onComplete` callback runs (it is a
plain captured function, so it runs whether or not the component is still
mounted). -/
def fireComplete (s : EngineState) (now : ℚ) : EngineState :=
  if s.completeDeadline = some now then
    { s with completeDeadline := none
             completedAt := (match s.completedAt with | none => some now | some t => some t)
             completeCount := s.completeCount + 1 }
  else s

/-- The `useEffect` cleanup at disposal: `cancelAnimationFrame(animationRef
.current)` — and nothing else.  The pending timeouts are left untouched. -/
def unmountEngine (s : EngineState) : EngineState :=
  { s with mounted := false, rafPending := false }

/-- Events the single-threaded loop can process. -/
inductive Event where
  | tick (now : ℚ)
  | hold (now : ℚ)
  | complete (now : ℚ)
  | unmount
deriving DecidableEq

/-- Dispatch one event.  Guards inside `tick`/`fireHold`/`fireComplete` make
spurious events (no pending frame, no timer due at that instant) no-ops, so
`run` is total over arbitrary event lists. -/
def step (s : EngineState) (e : Event) : EngineState :=
  match e with
  | .tick now => tick s now
  | .hold now => fireHold s now
  | .complete now => fireComplete s now
  | .unmount => unmountEngine s

/-- Process a whole event trace from the freshly-mounted state. -/
def run (evs : List Event) : EngineState := evs.foldl step initState

/-- Lifecycle invariant of a mounted engine that is never disposed: the session
is always in exactly one of four shapes — entering (nothing scheduled yet),
holding (hold timeout pending, frame loop stopped), fading (fade timeout
pending, anchored at the recorded fade start), or completed (`onComplete` ran
exactly once, exactly at fade start + fade duration). -/
def Inv (s : EngineState) : Prop :=
  s.mounted = true ∧
  ((s.fadeOut = false ∧ s.holdDeadline = none ∧ s.completeDeadline = none ∧
      s.completedAt = none ∧ s.completeCount = 0)
   ∨ (s.fadeOut = false ∧ s.rafPending = false ∧ (∃ d, s.holdDeadline = some d) ∧
      s.completeDeadline = none ∧ s.completedAt = none ∧ s.completeCount = 0)
   ∨ (s.fadeOut = true ∧ s.holdDeadline = none ∧
      (∃ f, s.fadeStartTime = some f ∧ s.completeDeadline = some (f + fadeOutDuration)) ∧
      s.completedAt = none ∧ s.completeCount = 0)
   ∨ (s.fadeOut = true ∧ s.holdDeadline = none ∧ s.completeDeadline = none ∧
      (∃ f, s.fadeStartTime = some f ∧ s.completedAt = some (f + fadeOutDuration)) ∧
      s.completeCount = 1))

theorem inv_initState : Inv initState := by
  refine ⟨rfl, Or.inl ⟨rfl, rfl, rfl, rfl, rfl⟩⟩

theorem inv_step (s : EngineState) (e : Event) (h : Inv s) (hne : e ≠ Event.unmount) :
    Inv (step s e) := by
  obtain ⟨hm, hc⟩ := h
  cases e with
  | unmount => exact absurd rfl hne
  | tick now =>
    simp only [step, tick]
    by_cases hraf : s.rafPending = true
    · simp only [hraf, if_true]
      by_cases hcond : 1 ≤ progressAt (startTimeOf s now) now ∧ s.fadeOut = false
      · rw [if_pos hcond]
        rcases hc with ⟨h1, h2, h3, h4, h5⟩ | ⟨h1, h2, h3, h4, h5, h6⟩ |
          ⟨h1, h2, h3, h4, h5⟩ | ⟨h1, h2, h3, h4, h5⟩
        · refine ⟨hm, Or.inr (Or.inl ⟨h1, ?_, ⟨now + holdPause, rfl⟩, h3, h4, h5⟩)⟩
          simp [not_lt.mpr hcond.1, hcond.2]
        · exact absurd hraf (by simp [h2])
        · exact absurd hcond.2 (by simp [h1])
        · exact absurd hcond.2 (by simp [h1])
      · rw [if_neg hcond]
        rcases hc with ⟨h1, h2, h3, h4, h5⟩ | ⟨h1, h2, h3, h4, h5, h6⟩ |
          ⟨h1, h2, h3, h4, h5⟩ | ⟨h1, h2, h3, h4, h5⟩
        · exact ⟨hm, Or.inl ⟨h1, h2, h3, h4, h5⟩⟩
        · exact absurd hraf (by simp [h2])
        · exact ⟨hm, Or.inr (Or.inr (Or.inl ⟨h1, h2, h3, h4, h5⟩))⟩
        · exact ⟨hm, Or.inr (Or.inr (Or.inr ⟨h1, h2, h3, h4, h5⟩))⟩
    · simp only [if_neg hraf]
      exact ⟨hm, hc⟩
  | hold now =>
    simp only [step, fireHold]
    by_cases hdl : s.holdDeadline = some now
    · rw [if_pos hdl, if_pos hm]
      rcases hc with ⟨h1, h2, h3, h4, h5⟩ | ⟨h1, h2, h3, h4, h5, h6⟩ |
        ⟨h1, h2, h3, h4, h5⟩ | ⟨h1, h2, h3, h4, h5⟩
      · exact absurd hdl (by simp [h2])
      · exact ⟨hm, Or.inr (Or.inr (Or.inl ⟨rfl, rfl, ⟨now, rfl, rfl⟩, h5, h6⟩))⟩
      · exact absurd hdl (by simp [h2])
      · exact absurd hdl (by simp [h2])
    · rw [if_neg hdl]
      exact ⟨hm, hc⟩
  | complete now =>
    simp only [step, fireComplete]
    by_cases hdl : s.completeDeadline = some now
    · rw [if_pos hdl]
      rcases hc with ⟨h1, h2, h3, h4, h5⟩ | ⟨h1, h2, h3, h4, h5, h6⟩ |
        ⟨h1, h2, h3, h4, h5⟩ | ⟨h1, h2, h3, h4, h5⟩
      · exact absurd hdl (by simp [h3])
      · exact absurd hdl (by simp [h4])
      · obtain ⟨f, hf, hfd⟩ := h3
        have hnow : now = f + fadeOutDuration := by
          rw [hfd] at hdl
          exact ((Option.some.injEq _ _).mp hdl).symm
        exact ⟨hm, Or.inr (Or.inr (Or.inr ⟨h1, h2, rfl, ⟨f, hf, by simp [h4, hnow]⟩,
          by simp [h5]⟩))⟩
      · exact absurd hdl (by simp [h3])
    · rw [if_neg hdl]
      exact ⟨hm, hc⟩

theorem inv_foldl (evs : List Event) (s : EngineState) (h : Inv s)
    (hno : ∀ e ∈ evs, e ≠ Event.unmount) : Inv (evs.foldl step s) := by
  induction evs generalizing s with
  | nil => exact h
  | cons e rest ih =>
    exact ih _ (inv_step s e h (hno e (List.mem_cons_self e rest)))
      (fun x hx => hno x (List.mem_cons_of_mem e hx))

theorem inv_run (evs : List Event) (hno : ∀ e ∈ evs, e ≠ Event.unmount) :
    Inv (run evs) := inv_foldl evs initState inv_initState hno

/-- A canonical full session: frames during Entering, the tick where progress
reaches 1 (at start 1000 + 4500 = 5500), the hold timeout at 6300, a frame
during the fade, and the fade timeout at 6300 + 1200 = 7500. -/
def fullRunTrace : List Event :=
  [.tick 1000, .tick 3000, .tick 5500, .hold 6300, .tick 6400, .complete 7500]

/-- The same session stopped just before the fade timeout fires. -/
def fullRunPrefix : List Event :=
  [.tick 1000, .tick 3000, .tick 5500, .hold 6300, .tick 6400]

/-- C1: across any undisposed session, `onComplete` has run at most once, and
whenever it has run it ran exactly at fade start + fade duration — i.e. at the
instant FadingOut ends, never earlier (every prefix of a run is itself a run,
so the bound holds at every intermediate state).  Moreover the canonical full
session fires it exactly once, and has not fired it at all one step before
the fade timeout. -/
theorem onComplete_exactly_once :
    (∀ evs : List Event, (∀ e ∈ evs, e ≠ Event.unmount) →
      (run evs).completeCount ≤ 1 ∧
      ((run evs).completeCount = 1 → (run evs).fadeOut = true ∧
        ∃ f, (run evs).fadeStartTime = some f ∧
          (run evs).completedAt = some (f + fadeOutDuration) ∧
          (run evs).completeDeadline = none)) ∧
    (run fullRunTrace).completeCount = 1 ∧
    (run fullRunTrace).completedAt = some (6300 + fadeOutDuration) ∧
    (run fullRunPrefix).completeCount = 0 := by
  refine ⟨fun evs hno => ?_, ?_⟩
  · obtain ⟨hm, hc⟩ := inv_run evs hno
    rcases hc with ⟨h1, h2, h3, h4, h5⟩ | ⟨h1, h2, h3, h4, h5, h6⟩ |
      ⟨h1, h2, h3, h4, h5⟩ | ⟨h1, h2, h3, h4, h5⟩
    · exact ⟨by omega, fun hcc => absurd hcc (by omega)⟩
    · exact ⟨by omega, fun hcc => absurd hcc (by omega)⟩
    · exact ⟨by omega, fun hcc => absurd hcc (by omega)⟩
    · obtain ⟨f, hf, hfa⟩ := h4
      exact ⟨by omega, fun _ => ⟨h1, f, hf, hfa, h3⟩⟩
  · refine ⟨?_, ?_, ?_⟩ <;>
      norm_num [run, fullRunTrace, fullRunPrefix, step, tick, fireHold, fireComplete,
        startTimeOf, progressAt, initState, totalDuration, holdPause, fadeOutDuration]

theorem onComplete_exactly_once_witness :
    (run [Event.tick 5, Event.tick 4505]).completeCount ≤ 1 :=
  (onComplete_exactly_once.1 [Event.tick 5, Event.tick 4505]
    (by intro e he; simp only [List.mem_cons, List.not_mem_nil, or_false] at he
        rcases he with h | h <;> simp [h])).1

/-- A session disposed mid-HoldingComplete: progress reaches 1 at 5500 and the
hold timeout is scheduled for 6300; the host unmounts at some point before
6300; the hold timeout nevertheless fires (only the animation frame was
cancelled), schedules the fade timeout, and `onComplete` runs at 7500. -/
def disposalTrace : List Event :=
  [.tick 1000, .tick 5500, .unmount, .hold 6300, .complete 7500]

/-- C2: the code violates cancellation safety.  In `disposalTrace` the host
disposes the engine while the hold timeout is pending; because the `useEffect`
cleanup cancels only the animation frame and clears neither timeout, the
completion callback still fires after disposal: the final state is unmounted
yet has `completeCount = 1`, with the hold timeout having rescheduled work
(the fade deadline) after disposal. -/
theorem dispose_does_not_prevent_onComplete :
    (run [Event.tick 1000, Event.tick 5500, Event.unmount]).mounted = false ∧
    (run [Event.tick 1000, Event.tick 5500, Event.unmount]).completeCount = 0 ∧
    (run [Event.tick 1000, Event.tick 5500, Event.unmount]).holdDeadline = some 6300 ∧
    (run disposalTrace).mounted = false ∧
    (run disposalTrace).completeCount = 1 ∧
    (run disposalTrace).completedAt = some 7500 := by
  refine ⟨?_, ?_, ?_, ?_, ?_, ?_⟩ <;>
    norm_num [run, disposalTrace, step, tick, fireHold, fireComplete, unmountEngine,
      startTimeOf, progressAt, initState, totalDuration, holdPause, fadeOutDuration]

/-- C5: the progress computed by `animate`, `min(elapsed/totalDuration, 1)`,
is monotonically nondecreasing in the tick's wall-clock time: between any two
ticks of one session (same captured start time), the later tick never yields
a smaller progress. -/
theorem progress_monotone (startTime now1 now2 : ℚ) (h : now1 ≤ now2) :
    progressAt startTime now1 ≤ progressAt startTime now2 := by
  unfold progressAt
  refine min_le_min ?_ le_rfl
  have hd : (0 : ℚ) < totalDuration := by norm_num [totalDuration]
  exact div_le_div_of_nonneg_right (by linarith) hd.le

theorem progress_monotone_witness : progressAt 1000 2000 ≤ progressAt 1000 3000 :=
  progress_monotone 1000 2000 3000 (by norm_num)

/-- C4 counterexample: the claim quantifies over every wall-clock value, but
for a wall clock earlier than the fade start the fade multiplier
`max(0, 1 - elapsedSinceFadeStart/fadeDuration)` exceeds 1: with
`startTime = 0` (fade start `0 + 4500 + 800 = 5300`), `t = 1`, `now = 4100`
during FadingOut, the per-element opacity is `1 * max(0, 1 + 1) = 2 > 1`. -/
theorem opacity_bounds_counterexample : 1 < opacityAt 1 true 4100 0 := by
  norm_num [opacityAt, totalDuration, holdPause, fadeOutDuration]

/-- C4 amended: for every `t ∈ [0,1]`, every phase (`fadeOut` flag), and every
wall-clock value at or after the fade start time
`startTime + totalDuration + 800`, the per-element opacity lies in `[0,1]`. -/
theorem opacity_bounds (t : ℚ) (fadeOut : Bool) (now startTime : ℚ)
    (h0 : 0 ≤ t) (h1 : t ≤ 1)
    (hn : startTime + totalDuration + holdPause ≤ now) :
    0 ≤ opacityAt t fadeOut now startTime ∧ opacityAt t fadeOut now startTime ≤ 1 := by
  unfold opacityAt
  have ho0 : 0 ≤ min (t * 2.5) 1 := le_min (by linarith) (by norm_num)
  have ho1 : min (t * 2.5) 1 ≤ 1 := min_le_right _ _
  cases fadeOut with
  | false => exact ⟨ho0, ho1⟩
  | true =>
    simp only [if_true]
    have hm0 : 0 ≤ max 0 (1 - (now - (startTime + totalDuration + holdPause)) / fadeOutDuration) :=
      le_max_left _ _
    have hm1 : max 0 (1 - (now - (startTime + totalDuration + holdPause)) / fadeOutDuration) ≤ 1 := by
      refine max_le (by norm_num) ?_
      have : 0 ≤ (now - (startTime + totalDuration + holdPause)) / fadeOutDuration := by
        apply div_nonneg (by linarith)
        norm_num [fadeOutDuration]
      linarith
    exact ⟨mul_nonneg ho0 hm0, mul_le_one₀ ho1 hm0 hm1⟩

theorem opacity_bounds_witness :
    0 ≤ opacityAt (1/2) true 5400 0 ∧ opacityAt (1/2) true 5400 0 ≤ 1 :=
  opacity_bounds (1/2) true 5400 0 (by norm_num) (by norm_num)
    (by norm_num [totalDuration, holdPause])

theorem easeOutQuart_mono (a b : ℝ) (h0 : 0 ≤ a) (hab : a ≤ b) (hb : b ≤ 1) :
    easeOutQuart a ≤ easeOutQuart b := by
  unfold easeOutQuart
  have h1 : (0 : ℝ) ≤ 1 - b := by linarith
  have h2 : 1 - b ≤ 1 - a := by linarith
  nlinarith [pow_le_pow_left₀ h1 h2 4]

theorem easeInOutCubic_mono (a b : ℝ) (h0 : 0 ≤ a) (hab : a ≤ b) (hb : b ≤ 1) :
    easeInOutCubic a ≤ easeInOutCubic b := by
  unfold easeInOutCubic
  by_cases ha2 : a < 0.5 <;> by_cases hb2 : b < 0.5
  · rw [if_pos ha2, if_pos hb2]
    nlinarith [pow_le_pow_left₀ h0 hab 3]
  · rw [if_pos ha2, if_neg hb2]
    push_neg at hb2
    have hba : (0 : ℝ) ≤ -2 * b + 2 := by linarith
    have hc1 : (-2 * b + 2) ^ 3 ≤ 1 := pow_le_one₀ hba (by linarith)
    have ha5 : a ≤ 0.5 := ha2.le
    nlinarith [pow_le_pow_left₀ h0 ha5 3]
  · push_neg at ha2
    exact absurd (hab.trans_lt hb2) (not_lt.mpr ha2)
  · rw [if_neg ha2, if_neg hb2]
    have hba : (0 : ℝ) ≤ -2 * b + 2 := by linarith
    have hd : -2 * b + 2 ≤ -2 * a + 2 := by linarith
    nlinarith [pow_le_pow_left₀ hba hd 3]

theorem easeOutQuart_bounds (t : ℝ) (h0 : 0 ≤ t) (h1 : t ≤ 1) :
    0 ≤ easeOutQuart t ∧ easeOutQuart t ≤ 1 := by
  unfold easeOutQuart
  have ha : (0 : ℝ) ≤ 1 - t := by linarith
  have hb : (1 - t) ^ 4 ≤ 1 := pow_le_one₀ ha (by linarith)
  have hc : 0 ≤ (1 - t) ^ 4 := pow_nonneg ha 4
  constructor <;> linarith

theorem easeInOutCubic_zero : easeInOutCubic 0 = 0 := by
  norm_num [easeInOutCubic]

theorem easeInOutCubic_one : easeInOutCubic 1 = 1 := by
  norm_num [easeInOutCubic]

theorem easeInOutCubic_bounds (t : ℝ) (h0 : 0 ≤ t) (h1 : t ≤ 1) :
    0 ≤ easeInOutCubic t ∧ easeInOutCubic t ≤ 1 := by
  constructor
  · have := easeInOutCubic_mono 0 t le_rfl h0 h1
    rwa [easeInOutCubic_zero] at this
  · have := easeInOutCubic_mono t 1 h0 h1 le_rfl
    rwa [easeInOutCubic_one] at this

/-- C8: the easing functions are exactly the claimed closed forms
(`4*t*t*t = 4t^3` up to ring normalisation), fix 0 and 1, are monotone
nondecreasing on `[0,1]`, and map `[0,1]` into `[0,1]`. -/
theorem easing_properties :
    (∀ t : ℝ, easeOutQuart t = 1 - (1 - t) ^ 4) ∧
    (∀ t : ℝ, easeInOutCubic t = if t < 0.5 then 4 * t ^ 3 else 1 - (-2 * t + 2) ^ 3 / 2) ∧
    easeOutQuart 0 = 0 ∧ easeOutQuart 1 = 1 ∧
    easeInOutCubic 0 = 0 ∧ easeInOutCubic 1 = 1 ∧
    (∀ a b : ℝ, 0 ≤ a → a ≤ b → b ≤ 1 → easeOutQuart a ≤ easeOutQuart b) ∧
    (∀ a b : ℝ, 0 ≤ a → a ≤ b → b ≤ 1 → easeInOutCubic a ≤ easeInOutCubic b) ∧
    (∀ t : ℝ, 0 ≤ t → t ≤ 1 → 0 ≤ easeOutQuart t ∧ easeOutQuart t ≤ 1) ∧
    (∀ t : ℝ, 0 ≤ t → t ≤ 1 → 0 ≤ easeInOutCubic t ∧ easeInOutCubic t ≤ 1) := by
  refine ⟨fun t => rfl, fun t => ?_, by norm_num [easeOutQuart], by norm_num [easeOutQuart],
    easeInOutCubic_zero, easeInOutCubic_one,
    easeOutQuart_mono, easeInOutCubic_mono, easeOutQuart_bounds, easeInOutCubic_bounds⟩
  unfold easeInOutCubic
  by_cases ht : t < 0.5
  · rw [if_pos ht, if_pos ht]; ring
  · rw [if_neg ht, if_neg ht]

theorem easing_properties_witness :
    easeOutQuart (1/4) ≤ easeOutQuart (1/2) ∧
    easeInOutCubic (1/4) ≤ easeInOutCubic (3/4) ∧
    (0 ≤ easeOutQuart (1/3) ∧ easeOutQuart (1/3) ≤ 1) ∧
    (0 ≤ easeInOutCubic (2/3) ∧ easeInOutCubic (2/3) ≤ 1) :=
  ⟨easing_properties.2.2.2.2.2.2.1 (1/4) (1/2) (by norm_num) (by norm_num) (by norm_num),
   easing_properties.2.2.2.2.2.2.2.1 (1/4) (3/4) (by norm_num) (by norm_num) (by norm_num),
   easing_properties.2.2.2.2.2.2.2.2.1 (1/3) (by norm_num) (by norm_num),
   easing_properties.2.2.2.2.2.2.2.2.2 (2/3) (by norm_num) (by norm_num)⟩

/-- C7: for any element index and any values of the eight `Math.random()`
draws (each in `[0,1)`), the generated seed lies in the claimed ranges, and
its final position is the deterministic `(index * spacing, 0)` with negative
spacing `-8`. -/
theorem seed_ranges (index : ℕ) (r1 r2 r3 r4 r5 r6 r7 r8 : ℝ) (s : ElementSeed)
    (hs : s = mkLetterSeed index r1 r2 r3 r4 r5 r6 r7 r8)
    (h1 : 0 ≤ r1) (h1' : r1 < 1) (h2 : 0 ≤ r2) (h2' : r2 < 1)
    (h3 : 0 ≤ r3) (h3' : r3 < 1) (h4 : 0 ≤ r4) (h4' : r4 < 1)
    (h5 : 0 ≤ r5) (h5' : r5 < 1) (h6 : 0 ≤ r6) (h6' : r6 < 1)
    (h7 : 0 ≤ r7) (h7' : r7 < 1) (h8 : 0 ≤ r8) (h8' : r8 < 1) :
    (-600 ≤ s.startX ∧ s.startX ≤ 600) ∧
    (-400 ≤ s.startY ∧ s.startY ≤ 400) ∧
    (-360 ≤ s.startRotation ∧ s.startRotation ≤ 360) ∧
    (0.1 ≤ s.startScale ∧ s.startScale < 0.4) ∧
    (-200 ≤ s.midX ∧ s.midX ≤ 200) ∧
    (-150 ≤ s.midY ∧ s.midY ≤ 150) ∧
    (0.2 ≤ s.pixelIntensity ∧ s.pixelIntensity < 1) ∧
    (-10 ≤ s.glitchOffset ∧ s.glitchOffset ≤ 10) ∧
    s.finalX = (index : ℝ) * (-8) ∧ ((-8 : ℝ) < 0) ∧ s.finalY = 0 := by
  subst hs
  simp only [mkLetterSeed]
  refine ⟨⟨by linarith, by linarith⟩, ⟨by linarith, by linarith⟩, ⟨by linarith, by linarith⟩,
    ⟨by linarith, by linarith⟩, ⟨by linarith, by linarith⟩, ⟨by linarith, by linarith⟩,
    ⟨by linarith, by linarith⟩, ⟨by linarith, by linarith⟩, trivial, by norm_num, trivial⟩

theorem seed_ranges_witness :
    (-600 ≤ (mkLetterSeed 3 (1/2) (1/2) (1/2) (1/2) (1/2) (1/2) (1/2) (1/2)).startX ∧
      (mkLetterSeed 3 (1/2) (1/2) (1/2) (1/2) (1/2) (1/2) (1/2) (1/2)).startX ≤ 600) ∧
    (-400 ≤ (mkLetterSeed 3 (1/2) (1/2) (1/2) (1/2) (1/2) (1/2) (1/2) (1/2)).startY ∧
      (mkLetterSeed 3 (1/2) (1/2) (1/2) (1/2) (1/2) (1/2) (1/2) (1/2)).startY ≤ 400) ∧
    (-360 ≤ (mkLetterSeed 3 (1/2) (1/2) (1/2) (1/2) (1/2) (1/2) (1/2) (1/2)).startRotation ∧
      (mkLetterSeed 3 (1/2) (1/2) (1/2) (1/2) (1/2) (1/2) (1/2) (1/2)).startRotation ≤ 360) ∧
    (0.1 ≤ (mkLetterSeed 3 (1/2) (1/2) (1/2) (1/2) (1/2) (1/2) (1/2) (1/2)).startScale ∧
      (mkLetterSeed 3 (1/2) (1/2) (1/2) (1/2) (1/2) (1/2) (1/2) (1/2)).startScale < 0.4) ∧
    (-200 ≤ (mkLetterSeed 3 (1/2) (1/2) (1/2) (1/2) (1/2) (1/2) (1/2) (1/2)).midX ∧
      (mkLetterSeed 3 (1/2) (1/2) (1/2) (1/2) (1/2) (1/2) (1/2) (1/2)).midX ≤ 200) ∧
    (-150 ≤ (mkLetterSeed 3 (1/2) (1/2) (1/2) (1/2) (1/2) (1/2) (1/2) (1/2)).midY ∧
      (mkLetterSeed 3 (1/2) (1/2) (1/2) (1/2) (1/2) (1/2) (1/2) (1/2)).midY ≤ 150) ∧
    (0.2 ≤ (mkLetterSeed 3 (1/2) (1/2) (1/2) (1/2) (1/2) (1/2) (1/2) (1/2)).pixelIntensity ∧
      (mkLetterSeed 3 (1/2) (1/2) (1/2) (1/2) (1/2) (1/2) (1/2) (1/2)).pixelIntensity < 1) ∧
    (-10 ≤ (mkLetterSeed 3 (1/2) (1/2) (1/2) (1/2) (1/2) (1/2) (1/2) (1/2)).glitchOffset ∧
      (mkLetterSeed 3 (1/2) (1/2) (1/2) (1/2) (1/2) (1/2) (1/2) (1/2)).glitchOffset ≤ 10) ∧
    (mkLetterSeed 3 (1/2) (1/2) (1/2) (1/2) (1/2) (1/2) (1/2) (1/2)).finalX = (3 : ℝ) * (-8) ∧
    ((-8 : ℝ) < 0) ∧
    (mkLetterSeed 3 (1/2) (1/2) (1/2) (1/2) (1/2) (1/2) (1/2) (1/2)).finalY = 0 :=
  seed_ranges 3 (1/2) (1/2) (1/2) (1/2) (1/2) (1/2) (1/2) (1/2) _ rfl
    (by norm_num) (by norm_num) (by norm_num) (by norm_num) (by norm_num) (by norm_num)
    (by norm_num) (by norm_num) (by norm_num) (by norm_num) (by norm_num) (by norm_num)
    (by norm_num) (by norm_num) (by norm_num) (by norm_num)

/-- C6: the glitch jitter equals the claimed closed form — the source's decay
factor `1 - progress * 2.5` is exactly the claimed `1 - t/0.4` — it vanishes
outside `t < 0.4` by definition, and in particular both components are
exactly 0 at `t = 0.5` for every element and every wall clock. -/
theorem glitch_jitter_formula (data : ElementSeed) (index : ℕ) (now : ℝ) :
    (∀ t : ℝ, glitchX data index now t =
      if t < 0.4 then
        Real.sin (now * 0.01 + (index : ℝ)) * data.glitchOffset * (1 - t / 0.4)
      else 0) ∧
    (∀ t : ℝ, glitchY data index now t =
      if t < 0.4 then
        Real.cos (now * 0.015 + (index : ℝ)) * data.glitchOffset * 0.5 * (1 - t / 0.4)
      else 0) ∧
    glitchX data index now 0.5 = 0 ∧ glitchY data index now 0.5 = 0 := by
  refine ⟨fun t => ?_, fun t => ?_, by norm_num [glitchX], by norm_num [glitchY]⟩
  · unfold glitchX
    by_cases h : t < 0.4
    · rw [if_pos h, if_pos h]; ring
    · rw [if_neg h, if_neg h]
  · unfold glitchY
    by_cases h : t < 0.4
    · rw [if_pos h, if_pos h]; ring
    · rw [if_neg h, if_neg h]

/-- C3: at `t = 1` the trajectory has fully converged for every seed and
index: position is exactly `(finalX, finalY)`, rotation is exactly 0 and
scale exactly 1 (exact over ℝ, hence within any floating tolerance). -/
theorem convergence_at_one (data : ElementSeed) (index : ℕ) :
    (getPosition data index 1).x = data.finalX ∧
    (getPosition data index 1).y = data.finalY ∧
    (getPosition data index 1).rotation = 0 ∧
    (getPosition data index 1).scale = 1 := by
  unfold getPosition
  norm_num [easeInOutCubic, min_def]

/-- The derived per-element visual parameters of `getLetterStyle` (the numeric
inputs of its `transform`, `opacity`, `textShadow` and `filter` outputs). -/
structure VisualState where
  x : ℝ
  y : ℝ
  rotation : ℝ
  scale : ℝ
  opacity : ℝ
  pixelSize : ℝ
  glowIntensity : ℝ
  glitchDx : ℝ
  glitchDy : ℝ

/-- `getLetterStyle(index)`: `const data = letterData[index]` yields
`undefined` for any index outside `[0, letterData.length)` (negative included),
and the subsequent `data.startX` access inside `getPosition` throws a
TypeError; the throw is modelled as `Except.error`.  In range, the numeric
style values are computed as in the source. -/
noncomputable def getLetterVisual (seeds : List ElementSeed) (index : ℤ)
    (progress : ℝ) (fadeOut : Bool) (now startTime : ℝ) : Except String VisualState :=
  if h : 0 ≤ index ∧ index.toNat < seeds.length then
    let data := seeds.get ⟨index.toNat, h.2⟩
    let pos := getPosition data index.toNat progress
    let pixelationProgress := min (progress * 1.8) 1
    let pixelSize := data.pixelIntensity * (1 - easeInOutCubic pixelationProgress) * 8
    let opacity0 := min (progress * 2.5) 1
    let opacity := if fadeOut then
        opacity0 * max 0 (1 - (now - (startTime + 4500 + 800)) / 1200)
      else opacity0
    let glowIntensity := max 0 ((progress - 0.8) / 0.2)
    Except.ok
      { x := pos.x
        y := pos.y
        rotation := pos.rotation
        scale := pos.scale
        opacity := opacity
        pixelSize := pixelSize
        glowIntensity := glowIntensity
        glitchDx := glitchX data index.toNat now progress
        glitchDy := glitchY data index.toNat now progress }
  else Except.error "TypeError: cannot read properties of undefined"

/-- C9: querying the visual state of an element index outside
`[0, elementCount)` fails loudly with an error result — the out-of-range
lookup never silently clamps and never returns a value. -/
theorem getVisualState_out_of_range (seeds : List ElementSeed) (index : ℤ)
    (progress : ℝ) (fadeOut : Bool) (now startTime : ℝ)
    (h : index < 0 ∨ (seeds.length : ℤ) ≤ index) :
    ∃ msg, getLetterVisual seeds index progress fadeOut now startTime = Except.error msg := by
  have hn : ¬ (0 ≤ index ∧ index.toNat < seeds.length) := by
    rintro ⟨h0, hlt⟩
    rcases h with h | h
    · exact absurd h0 (not_le.mpr h)
    · omega
  refine ⟨"TypeError: cannot read properties of undefined", ?_⟩
  unfold getLetterVisual
  rw [dif_neg hn]

/-- A concrete all-zero seed, for evaluating the lookup on explicit input. -/
noncomputable def sampleSeed : ElementSeed :=
  ⟨0, 0, 0, 0, 0, 0, 0, 0, 0, 0⟩

theorem getVisualState_out_of_range_witness :
    (∃ msg, getLetterVisual [sampleSeed] 5 0 false 0 0 = Except.error msg) ∧
    (∃ msg, getLetterVisual [sampleSeed] (-1) 0 false 0 0 = Except.error msg) :=
  ⟨getVisualState_out_of_range [sampleSeed] 5 0 false 0 0 (by norm_num),
   getVisualState_out_of_range [sampleSeed] (-1) 0 false 0 0 (by norm_num)⟩

/-- C10: the two-segment path is continuous at the `t = 0.6` boundary: along
`t → 0.6` from below the first segment's position tends to
`(midX, midY)` — `easeOutQuart(0.6/0.6) = 1` makes the sinusoidal overshoot
vanish and the first lerp end at the midpoint — and the second segment starts
there: `getPosition` at `t = 0.6` itself equals `(midX, midY)`. -/
theorem path_continuous_at_boundary (data : ElementSeed) (index : ℕ) :
    Filter.Tendsto (fun t => (getPosition data index t).x)
      (nhdsWithin 0.6 (Set.Iio 0.6)) (nhds data.midX) ∧
    Filter.Tendsto (fun t => (getPosition data index t).y)
      (nhdsWithin 0.6 (Set.Iio 0.6)) (nhds data.midY) ∧
    (getPosition data index 0.6).x = data.midX ∧
    (getPosition data index 0.6).y = data.midY := by
  have hfx : ContinuousAt (fun t : ℝ =>
      data.startX * (1 - easeOutQuart (t / 0.6)) + data.midX * easeOutQuart (t / 0.6)
        + Real.sin (t * Real.pi * 3 + (index : ℝ)) * (1 - easeOutQuart (t / 0.6)) * 50) 0.6 := by
    unfold easeOutQuart
    fun_prop
  have hfy : ContinuousAt (fun t : ℝ =>
      data.startY * (1 - easeOutQuart (t / 0.6)) + data.midY * easeOutQuart (t / 0.6)
        + Real.cos (t * Real.pi * 2.5 + (index : ℝ)) * (1 - easeOutQuart (t / 0.6)) * 30) 0.6 := by
    unfold easeOutQuart
    fun_prop
  have hvx : data.startX * (1 - easeOutQuart (0.6 / 0.6)) + data.midX * easeOutQuart (0.6 / 0.6)
      + Real.sin (0.6 * Real.pi * 3 + (index : ℝ)) * (1 - easeOutQuart (0.6 / 0.6)) * 50
      = data.midX := by
    norm_num [easeOutQuart]
  have hvy : data.startY * (1 - easeOutQuart (0.6 / 0.6)) + data.midY * easeOutQuart (0.6 / 0.6)
      + Real.cos (0.6 * Real.pi * 2.5 + (index : ℝ)) * (1 - easeOutQuart (0.6 / 0.6)) * 30
      = data.midY := by
    norm_num [easeOutQuart]
  have tx := hfx.continuousWithinAt (s := Set.Iio 0.6)
  have ty := hfy.continuousWithinAt (s := Set.Iio 0.6)
  rw [ContinuousWithinAt, hvx] at tx
  rw [ContinuousWithinAt, hvy] at ty
  refine ⟨Filter.Tendsto.congr' ?_ tx, Filter.Tendsto.congr' ?_ ty, ?_, ?_⟩
  · filter_upwards [self_mem_nhdsWithin] with t ht
    simp only [getPosition]
    rw [if_pos (Set.mem_Iio.mp ht)]
  · filter_upwards [self_mem_nhdsWithin] with t ht
    simp only [getPosition]
    rw [if_pos (Set.mem_Iio.mp ht)]
  · unfold getPosition
    norm_num [easeInOutCubic]
  · unfold getPosition
    norm_num [easeInOutCubic]

end Cerebra
